/-
Verification of the time-series normalization and paired-comparison
aggregation core of the RET Operations Report generator.

The development shallowly embeds, over lists of (date, optional rational
value) rows:
  * `get_water_year`            (src/scripts/plot_generators.py, lines 22-26),
  * `handle_snotel_cumulative`  (the Decumulator, lines 29-51), including the
    pandas semantics of `sort_values`, `groupby('water_year').diff()`
    (the difference uses the immediately preceding row of the group, and is
    missing when either operand is missing), the first-day-of-water-year
    override, and the negative-difference-to-missing rule,
  * the statistics core of `plot_snow_depth_boxplots` (the Paired
    Aggregator, lines 282-339): month filtering, per-series dropna,
    date alignment by index union plus dropna (an inner join on non-missing
    dates), the difference column, and the highlight triple of means,
  * the per-pair batch loop of `generate_all_plots`
    (src/scripts/generate_report.py, lines 152-163), with each pair's
    computation modelled as a result-or-error value.

Missing readings are `Option.none`; numeric values are rationals.
-/
import Mathlib

/-- A calendar date, as the (year, month, day) triple pandas timestamps
expose to the plotting code. -/
structure Date where
  year : Nat
  month : Nat
  day : Nat
deriving DecidableEq, Repr

/-- Lexicographic order on dates: year, then month, then day. -/
def Date.le (a b : Date) : Prop :=
  a.year < b.year ∨ (a.year = b.year ∧
    (a.month < b.month ∨ (a.month = b.month ∧ a.day ≤ b.day)))

/-- Strict lexicographic order on dates. -/
def Date.lt (a b : Date) : Prop :=
  a.year < b.year ∨ (a.year = b.year ∧
    (a.month < b.month ∨ (a.month = b.month ∧ a.day < b.day)))

instance (a b : Date) : Decidable (Date.le a b) :=
  inferInstanceAs (Decidable (a.year < b.year ∨ (a.year = b.year ∧
    (a.month < b.month ∨ (a.month = b.month ∧ a.day ≤ b.day)))))

instance (a b : Date) : Decidable (Date.lt a b) :=
  inferInstanceAs (Decidable (a.year < b.year ∨ (a.year = b.year ∧
    (a.month < b.month ∨ (a.month = b.month ∧ a.day < b.day)))))

theorem Date.le_refl (a : Date) : Date.le a a := by
  unfold Date.le; omega

theorem Date.le_trans {a b c : Date} (h1 : Date.le a b) (h2 : Date.le b c) :
    Date.le a c := by
  unfold Date.le at *; omega

theorem Date.le_total (a b : Date) : Date.le a b ∨ Date.le b a := by
  unfold Date.le; omega

theorem Date.lt_le {a b : Date} (h : Date.lt a b) : Date.le a b := by
  unfold Date.lt at h; unfold Date.le; omega

theorem Date.lt_not_le {a b : Date} (h : Date.lt a b) : ¬ Date.le b a := by
  unfold Date.lt at h; unfold Date.le; omega

theorem Date.lt_trans {a b c : Date} (h1 : Date.lt a b) (h2 : Date.lt b c) :
    Date.lt a c := by
  unfold Date.lt at *; omega

theorem Date.lt_ne {a b : Date} (h : Date.lt a b) : a ≠ b := by
  intro he; subst he; unfold Date.lt at h; omega

/-- `config.py`: `WATER_YEAR_START_MONTH = 10`. -/
def WATER_YEAR_START_MONTH : Nat := 10

/-- `config.py`: `WATER_YEAR_START_DAY = 1`. -/
def WATER_YEAR_START_DAY : Nat := 1

/-- `get_water_year`, parameterized by the two configuration values that are
in scope where it is defined (it imports both `WATER_YEAR_START_MONTH` and
`WATER_YEAR_START_DAY` from `config`).  Body from the source:
`if date.month >= WATER_YEAR_START_MONTH: return date.year + 1` else
`return date.year`. -/
def get_water_year_cfg (startMonth _startDay : Nat) (date : Date) : Nat :=
  if date.month ≥ startMonth then date.year + 1 else date.year

/-- `get_water_year` at the configured constants. -/
def get_water_year (date : Date) : Nat :=
  get_water_year_cfg WATER_YEAR_START_MONTH WATER_YEAR_START_DAY date

/-- Water year is monotone along the date order. -/
theorem get_water_year_monotone {a b : Date} (h : Date.le a b) :
    get_water_year a ≤ get_water_year b := by
  unfold Date.le at h
  unfold get_water_year get_water_year_cfg WATER_YEAR_START_MONTH
  split <;> split <;> omega

/-- A row of a station series: a date and a possibly missing value. -/
abbrev Row : Type := Date × Option ℚ

/-- pandas `df.sort_values(date_col)`: a stable sort by date. -/
def sort_by_date (rows : List Row) : List Row :=
  List.insertionSort (fun a b => Date.le a.1 b.1) rows

/-- pandas `Series.find`-style lookup used to model
`groupby('water_year')[value_col].diff()`: the accumulator stores, most
recent first, the (water year, value) of every earlier row; `diff` subtracts
the value of the immediately preceding row of the same group. -/
def lookupWY (acc : List (Nat × Option ℚ)) (wy : Nat) : Option (Option ℚ) :=
  match acc.find? (fun p => p.1 == wy) with
  | some p => some p.2
  | none => none

/-- The `daily_diff` column produced by
`df.groupby('water_year')[value_col].diff()`, row by row: current value
minus the value of the previous row in the same water-year group, missing
when there is no previous row in the group or when either value is
missing. -/
def groupDiff (acc : List (Nat × Option ℚ)) : List Row → List (Option ℚ)
  | [] => []
  | (d, v) :: rest =>
      (match lookupWY acc (get_water_year d), v with
       | some (some pv), some cv => some (cv - pv)
       | _, _ => none)
        :: groupDiff ((get_water_year d, v) :: acc) rest

/-- The mask `df.groupby('water_year')[date_col].transform('min') ==
df[date_col]`: a row's date equals the minimum date of its water-year
group. -/
def firstOfWY (rows : List Row) (d : Date) : Bool :=
  rows.all (fun r =>
    !(get_water_year r.1 == get_water_year d) || decide (Date.le d r.1))

/-- `np.nan` replacement of negative differences:
`df.loc[df['daily_diff'] < 0, 'daily_diff'] = np.nan`. -/
def negToNan (v : Option ℚ) : Option ℚ :=
  match v with
  | some x => if x < 0 then none else some x
  | none => none

/-- `handle_snotel_cumulative` (plot_generators.py, lines 29-51): sort by
date, compute per-water-year differences, override the first day of each
water year with the raw value, replace negative differences with missing,
and return the (date, daily_diff) series. -/
def handle_snotel_cumulative (rows : List Row) : List Row :=
  let sorted := sort_by_date rows
  let diffs := groupDiff [] sorted
  (sorted.zip diffs).map (fun p =>
    (p.1.1, negToNan (if firstOfWY sorted p.1.1 then p.1.2 else p.2)))

/-- One-pass form of the Decumulator on a date-sorted input, before the
negative-to-missing rule: each row's increment is its value minus the value
of the immediately preceding row when that row is in the same water year
(missing when either value is missing), and the raw value itself at the
first row of each water year.  `prev` carries the water year and value of
the preceding row. -/
def raw_increments (prev : Option (Nat × Option ℚ)) : List Row → List Row
  | [] => []
  | (d, v) :: rest =>
      let wy := get_water_year d
      let dd : Option ℚ :=
        match prev with
        | some (pwy, pv) =>
            if pwy = wy then
              match pv, v with
              | some pq, some cq => some (cq - pq)
              | _, _ => none
            else v
        | none => v
      (d, dd) :: raw_increments (some (wy, v)) rest

/-- One-pass form of the Decumulator on a date-sorted input: the raw
increments with the negative-to-missing rule applied pointwise. -/
def decumulate_sorted (prev : Option (Nat × Option ℚ)) (rows : List Row) :
    List Row :=
  (raw_increments prev rows).map (fun r => (r.1, negToNan r.2))

/-- The accumulator `groupDiff` has built after consuming `pre`. -/
def stateList (pre : List Row) : List (Nat × Option ℚ) :=
  (pre.map (fun r => (get_water_year r.1, r.2))).reverse

/-- The `prev` state of `raw_increments` after consuming `pre`. -/
def stateAfter (prev : Option (Nat × Option ℚ)) (pre : List Row) :
    Option (Nat × Option ℚ) :=
  match pre.getLast? with
  | some r => some (get_water_year r.1, r.2)
  | none => prev

/-- A monthly summary for one treatment/control pair: the three value
collections handed to the three boxplot panels plus the optional highlight
triple of means. -/
structure MonthlySummary where
  treatment_dist : List ℚ
  control_dist : List ℚ
  diff_dist : List ℚ
  highlight : Option (ℚ × ℚ × ℚ)
deriving DecidableEq, Repr

/-- `df[df['month'] == target_month]`. -/
def month_filter (rows : List Row) (m : Nat) : List Row :=
  rows.filter (fun r => r.1.month == m)

/-- `.dropna().values` on a month-filtered series. -/
def dropna_values (rows : List Row) : List ℚ :=
  rows.filterMap (fun r => r.2)

/-- Value of a date-indexed series at a date: the value stored at that
date, missing when the date is absent or its stored value is missing
(both appear as NaN after the pandas index alignment). -/
def lookup_value (rows : List Row) (d : Date) : Option ℚ :=
  (rows.find? (fun r => r.1 == d)).bind (fun r => r.2)

/-- The index of `pd.DataFrame({'Treatment': t_month, 'Control':
c_month})`: the sorted union of the two date indexes. -/
def union_dates (t c : List Row) : List Date :=
  List.insertionSort Date.le ((t.map Prod.fst ++ c.map Prod.fst).dedup)

/-- `merged.dropna()` with the `Treatment` and `Control` columns: the
dates of the union index at which both series have a present value, with
the two values. -/
def merged_rows (t c : List Row) : List (Date × ℚ × ℚ) :=
  (union_dates t c).filterMap (fun d =>
    match lookup_value t d, lookup_value c d with
    | some tv, some cv => some (d, tv, cv)
    | _, _ => none)

/-- pandas `Series.mean()` of a list of present values. -/
def mean (xs : List ℚ) : ℚ := xs.sum / xs.length

/-- The statistics core of `plot_snow_depth_boxplots`
(plot_generators.py, lines 282-339): filter both series to the target
month, keep the per-series non-missing values as the two distributions,
align the month-filtered series by date and drop incomplete rows, take the
per-date differences as the third distribution, and, when a highlight year
is passed (the code only tests its truthiness), attach the triple of means
over the aligned rows.  Returns `none` — the function's "no data" early
return — when either station has no non-missing value for the month or the
aligned set is empty. -/
def plot_snow_depth_boxplots (treatment control : List Row)
    (target_month : Nat) (highlight_year : Option Nat) :
    Option MonthlySummary :=
  let t_month := month_filter treatment target_month
  let c_month := month_filter control target_month
  let t_data := dropna_values t_month
  let c_data := dropna_values c_month
  if t_data.length > 0 ∧ c_data.length > 0 then
    let merged := merged_rows t_month c_month
    if merged.length > 0 then
      some { treatment_dist := t_data
             control_dist := c_data
             diff_dist := merged.map (fun r => r.2.1 - r.2.2)
             highlight :=
               match highlight_year with
               | some _ => some (mean (merged.map (fun r => r.2.1)),
                                 mean (merged.map (fun r => r.2.2)),
                                 mean (merged.map (fun r => r.2.1 - r.2.2)))
               | none => none }
    else none
  else none

/-- The nested per-pair loop of `generate_all_plots`
(generate_report.py, lines 152-163): every (treatment, control)
combination is visited in order and its computation runs inside its own
`try`/`except`, so each pair's outcome — modelled as a result-or-error
value — is recorded independently of the others. -/
def generate_all_plots_pairs {E R : Type} (compute : String → String → Except E R)
    (treatment_stations control_stations : List String) :
    List ((String × String) × Except E R) :=
  treatment_stations.flatMap (fun t =>
    control_stations.map (fun c => ((t, c), compute t c)))

/-- Reference function for the spec's description of the Decumulator on a
well-formed series (all values present): within each water-year segment the
pairwise forward differences, with each segment's first element the raw
cumulative value. -/
def forward_differences_spec (prev : Option (Nat × ℚ)) :
    List (Date × ℚ) → List (Date × ℚ)
  | [] => []
  | (d, v) :: rest =>
      let wy := get_water_year d
      let inc : ℚ :=
        match prev with
        | some (pwy, pv) => if pwy = wy then v - pv else v
        | none => v
      (d, inc) :: forward_differences_spec (some (wy, v)) rest

/-- Well-formedness of a reading relative to the preceding reading's
(water year, value): strictly larger within the same water year, and
nonnegative when it opens a new water year (or the series). -/
def seg_ok (p : Option (Nat × ℚ)) (b : Date × ℚ) : Prop :=
  match p with
  | none => 0 ≤ b.2
  | some (pwy, pv) =>
      (pwy = get_water_year b.1 → pv < b.2) ∧
      (pwy ≠ get_water_year b.1 → 0 ≤ b.2)

/-! ### Helper lemmas -/

/-- The aggregator returns its no-data sentinel exactly when a per-station
month distribution is empty or the aligned set is empty. -/
lemma plot_none_iff (t c : List Row) (m : Nat) (y : Option Nat) :
    plot_snow_depth_boxplots t c m y = none ↔
      dropna_values (month_filter t m) = [] ∨
      dropna_values (month_filter c m) = [] ∨
      merged_rows (month_filter t m) (month_filter c m) = [] := by
  simp only [plot_snow_depth_boxplots]
  split_ifs with h1 h2
  · simp only [List.length_pos] at h1 h2
    simp [h1.1, h1.2, h2]
  · simp only [List.length_pos] at h1
    simp only [gt_iff_lt, List.length_pos, not_ne_iff] at h2
    simp [h2]
  · simp only [gt_iff_lt, List.length_pos, not_and_or, not_ne_iff] at h1
    rcases h1 with h | h <;> simp [h]

/-- When the aggregator returns a summary, its fields are the month
distributions, the aligned differences, and (iff a highlight year was
passed) the triple of means over all aligned rows. -/
lemma plot_some_fields (t c : List Row) (m : Nat) (y : Option Nat)
    (s : MonthlySummary) (h : plot_snow_depth_boxplots t c m y = some s) :
    s.treatment_dist = dropna_values (month_filter t m) ∧
    s.control_dist = dropna_values (month_filter c m) ∧
    s.diff_dist = (merged_rows (month_filter t m) (month_filter c m)).map
      (fun r => r.2.1 - r.2.2) ∧
    s.highlight = (match y with
      | some _ => some
          (mean ((merged_rows (month_filter t m) (month_filter c m)).map
             (fun r => r.2.1)),
           mean ((merged_rows (month_filter t m) (month_filter c m)).map
             (fun r => r.2.2)),
           mean ((merged_rows (month_filter t m) (month_filter c m)).map
             (fun r => r.2.1 - r.2.2)))
      | none => none) := by
  simp only [plot_snow_depth_boxplots] at h
  split_ifs at h with h1 h2
  · rw [Option.some_inj] at h
    subst h
    refine ⟨rfl, rfl, rfl, ?_⟩
    cases y <;> rfl

/-- Membership in a month-filtered, missing-dropped value list. -/
lemma mem_dropna_month (l : List Row) (m : Nat) (v : ℚ) :
    v ∈ dropna_values (month_filter l m) ↔
      ∃ d : Date, (d, some v) ∈ l ∧ d.month = m := by
  simp only [dropna_values, month_filter, List.mem_filterMap, List.mem_filter]
  constructor
  · rintro ⟨⟨d, w⟩, ⟨hmem, hm⟩, hv⟩
    simp only at hv
    subst hv
    exact ⟨d, hmem, by simpa using hm⟩
  · rintro ⟨d, hmem, hm⟩
    exact ⟨(d, some v), ⟨hmem, by simpa using hm⟩, rfl⟩

/-- With no duplicate dates, `find?` by date returns the unique row at
that date. -/
lemma find_by_date {l : List Row} (h : (l.map Prod.fst).Nodup) {d : Date}
    {v : Option ℚ} (hm : (d, v) ∈ l) :
    l.find? (fun r => r.1 == d) = some (d, v) := by
  induction l with
  | nil => cases hm
  | cons r rest ih =>
      simp only [List.map_cons, List.nodup_cons] at h
      rcases List.mem_cons.mp hm with he | hrest
      · subst he
        simp [List.find?_cons_of_pos]
      · have hne : r.1 ≠ d := by
          intro he
          exact h.1 (he ▸ (List.mem_map.mpr ⟨(d, v), hrest, rfl⟩))
        rw [List.find?_cons_of_neg _ (by simpa using hne)]
        exact ih h.2 hrest

/-- With no duplicate dates, the aligned-series lookup finds exactly the
rows present with a value. -/
lemma lookup_value_eq_some {l : List Row} (h : (l.map Prod.fst).Nodup)
    {d : Date} {v : ℚ} :
    lookup_value l d = some v ↔ (d, some v) ∈ l := by
  constructor
  · intro hl
    simp only [lookup_value, Option.bind_eq_some] at hl
    rcases hl with ⟨r, hfind, hv⟩
    have hmem := List.mem_of_find?_eq_some hfind
    have hd : r.1 = d := by
      have := List.find?_some hfind
      simpa using this
    have : r = (d, some v) := by
      rcases r with ⟨rd, rv⟩
      simp only at hd hv
      simp [hd, hv]
    exact this ▸ hmem
  · intro hmem
    simp only [lookup_value]
    rw [find_by_date h hmem]
    rfl

/-- Dates present in either input appear in the union index. -/
lemma mem_union_dates_left {t c : List Row} {d : Date} {v : Option ℚ}
    (hm : (d, v) ∈ t) : d ∈ union_dates t c := by
  have hperm := List.perm_insertionSort (Date.le) ((t.map Prod.fst ++ c.map Prod.fst).dedup)
  rw [union_dates, hperm.mem_iff, List.mem_dedup, List.mem_append]
  exact Or.inl (List.mem_map.mpr ⟨(d, v), hm, rfl⟩)

/-- Characterization of the aligned rows: with no duplicate dates on
either side, a (date, treatment value, control value) triple is aligned
exactly when both rows are present with those values. -/
lemma mem_merged_rows {t c : List Row} (ht : (t.map Prod.fst).Nodup)
    (hc : (c.map Prod.fst).Nodup) {d : Date} {tv cv : ℚ} :
    (d, tv, cv) ∈ merged_rows t c ↔ ((d, some tv) ∈ t ∧ (d, some cv) ∈ c) := by
  simp only [merged_rows, List.mem_filterMap]
  constructor
  · rintro ⟨d', _, hmatch⟩
    rcases hlt : lookup_value t d' with _ | tv' <;>
      rcases hlc : lookup_value c d' with _ | cv' <;>
        rw [hlt, hlc] at hmatch <;> simp at hmatch
    obtain ⟨rfl, rfl, rfl⟩ := hmatch
    exact ⟨(lookup_value_eq_some ht).mp hlt, (lookup_value_eq_some hc).mp hlc⟩
  · rintro ⟨hmt, hmc⟩
    refine ⟨d, mem_union_dates_left hmt, ?_⟩
    rw [(lookup_value_eq_some ht).mpr hmt, (lookup_value_eq_some hc).mpr hmc]

/-- The date column of a month-filtered series stays duplicate-free. -/
lemma nodup_month_filter {l : List Row} (h : (l.map Prod.fst).Nodup) (m : Nat) :
    ((month_filter l m).map Prod.fst).Nodup :=
  ((List.filter_sublist l).map Prod.fst).nodup h

/-- Auxiliary: length of a flat-mapped list with constant block size. -/
lemma flatMap_length_const {α β : Type} (f : α → List β) (l : List α) (n : Nat)
    (h : ∀ a ∈ l, (f a).length = n) : (l.flatMap f).length = l.length * n := by
  induction l with
  | nil => simp
  | cons a l ih =>
      rw [List.flatMap_cons, List.length_append, h a (by simp),
        ih (fun b hb => h b (by simp [hb])), List.length_cons]
      ring

/-! ### Claims -/

/-- C1 (code bug evaluation): the aggregator's highlight ignores the value
of `highlight_year`.  With data only in January 2024 on both stations and
`highlight_year = 2025`, the target-year-restricted aligned subset is
empty, yet the returned summary still carries a highlight — the triple of
means over the 2024 rows — instead of no highlight. -/
theorem C1_highlight_ignores_target_year :
    plot_snow_depth_boxplots
        [(⟨2024, 1, 5⟩, some 10)] [(⟨2024, 1, 5⟩, some 4)] 1 (some 2025) =
      some ⟨[10], [4], [6], some (10, 4, 6)⟩ := by
  norm_num [plot_snow_depth_boxplots, month_filter, dropna_values, merged_rows,
    union_dates, lookup_value, mean, List.insertionSort, List.orderedInsert,
    List.dedup, List.pwFilter, Date.le, List.filterMap_cons, List.find?_cons]

/-- C2 (counterexample): a missing cumulative value does not leave the next
reading's increment computable against the nearest prior non-missing value.
With readings 5, missing, 8 on Oct 1-3 of one water year, the code's
group-wise `diff` subtracts the immediately preceding row, so the Oct 3
increment is missing as well, not `8 - 5 = 3`. -/
theorem C2_missing_breaks_next_increment :
    handle_snotel_cumulative
        [(⟨2025, 10, 1⟩, some 5), (⟨2025, 10, 2⟩, none), (⟨2025, 10, 3⟩, some 8)] =
      [(⟨2025, 10, 1⟩, some 5), (⟨2025, 10, 2⟩, none), (⟨2025, 10, 3⟩, none)] ∧
    (handle_snotel_cumulative
        [(⟨2025, 10, 1⟩, some 5), (⟨2025, 10, 2⟩, none), (⟨2025, 10, 3⟩, some 8)]).get? 2 ≠
      some (⟨2025, 10, 3⟩, some 3) := by
  have h : handle_snotel_cumulative
      [(⟨2025, 10, 1⟩, some 5), (⟨2025, 10, 2⟩, none), (⟨2025, 10, 3⟩, some 8)] =
      [(⟨2025, 10, 1⟩, some 5), (⟨2025, 10, 2⟩, none), (⟨2025, 10, 3⟩, none)] := by
    norm_num [handle_snotel_cumulative, sort_by_date, groupDiff, lookupWY,
      firstOfWY, negToNan, get_water_year, get_water_year_cfg,
      WATER_YEAR_START_MONTH, List.insertionSort, List.orderedInsert, Date.le]
  refine ⟨h, ?_⟩
  rw [h]
  simp

/-- C3 (counterexample): a single-reading segment does not always yield the
raw cumulative value: a negative raw value at the start of a segment is
swallowed by the negative-to-missing rule, so the output at that date is
missing, not the raw value. -/
theorem C3_negative_first_value_cex :
    handle_snotel_cumulative [(⟨2025, 10, 1⟩, some (-1))] =
      [(⟨2025, 10, 1⟩, none)] ∧
    handle_snotel_cumulative [(⟨2025, 10, 1⟩, some (-1))] ≠
      [(⟨2025, 10, 1⟩, some (-1))] := by
  have h : handle_snotel_cumulative [(⟨2025, 10, 1⟩, some (-1))] =
      [(⟨2025, 10, 1⟩, none)] := by
    norm_num [handle_snotel_cumulative, sort_by_date, groupDiff, lookupWY,
      firstOfWY, negToNan, get_water_year, get_water_year_cfg,
      WATER_YEAR_START_MONTH, List.insertionSort, List.orderedInsert, Date.le]
  refine ⟨h, ?_⟩
  rw [h]
  simp

/-- C6: whenever the aggregator returns a summary, the treatment and
control distributions contain exactly the non-missing values whose date's
calendar month equals the target month, drawn from every year present in
the input — not only from the target year. -/
theorem C6_distributions_pool_all_years :
    ∀ (t c : List Row) (m : Nat) (y : Option Nat) (s : MonthlySummary),
      plot_snow_depth_boxplots t c m y = some s →
      (∀ (d : Date) (v : ℚ), (d, some v) ∈ t → d.month = m → v ∈ s.treatment_dist) ∧
      (∀ v : ℚ, v ∈ s.treatment_dist → ∃ d : Date, (d, some v) ∈ t ∧ d.month = m) ∧
      (∀ (d : Date) (v : ℚ), (d, some v) ∈ c → d.month = m → v ∈ s.control_dist) ∧
      (∀ v : ℚ, v ∈ s.control_dist → ∃ d : Date, (d, some v) ∈ c ∧ d.month = m) := by
  intro t c m y s h
  obtain ⟨h1, h2, -, -⟩ := plot_some_fields t c m y s h
  refine ⟨?_, ?_, ?_, ?_⟩
  · intro d v hm hmon
    rw [h1, mem_dropna_month]
    exact ⟨d, hm, hmon⟩
  · intro v hv
    rw [h1, mem_dropna_month] at hv
    exact hv
  · intro d v hm hmon
    rw [h2, mem_dropna_month]
    exact ⟨d, hm, hmon⟩
  · intro v hv
    rw [h2, mem_dropna_month] at hv
    exact hv

/-- Witness for C6 at the concrete two-day January series. -/
theorem C6_distributions_pool_all_years_witness :
    (10 : ℚ) ∈ (MonthlySummary.mk [10, 12] [8, 8] [2, 4] (some (11, 8, 3))).treatment_dist :=
  (C6_distributions_pool_all_years
      [(⟨2025, 1, 5⟩, some 10), (⟨2025, 1, 6⟩, some 12)]
      [(⟨2025, 1, 5⟩, some 8), (⟨2025, 1, 6⟩, some 8)]
      1 (some 2025) ⟨[10, 12], [8, 8], [2, 4], some (11, 8, 3)⟩
      (by norm_num [plot_snow_depth_boxplots, month_filter, dropna_values,
        merged_rows, union_dates, lookup_value, mean, List.insertionSort,
        List.orderedInsert, List.dedup, List.pwFilter, Date.le,
        List.filterMap_cons, List.find?_cons, instBEqOfDecidableEq])).1
    ⟨2025, 1, 5⟩ 10 (by norm_num) rfl

/-- C7: the aggregator returns the no-data sentinel exactly when a station
has no non-missing value for the target month or the date-aligned
intersection of the two month-filtered series is empty; in particular a
treatment series with no rows for the month yields the sentinel. -/
theorem C7_no_data_sentinel :
    ∀ (t c : List Row) (m : Nat) (y : Option Nat),
      (plot_snow_depth_boxplots t c m y = none ↔
        dropna_values (month_filter t m) = [] ∨
        dropna_values (month_filter c m) = [] ∨
        merged_rows (month_filter t m) (month_filter c m) = []) ∧
      (month_filter t m = [] → plot_snow_depth_boxplots t c m y = none) := by
  intro t c m y
  refine ⟨plot_none_iff t c m y, fun h => ?_⟩
  rw [plot_none_iff]
  exact Or.inl (by rw [h]; rfl)

/-- Witness for C7: a treatment series with no January rows gives the
sentinel. -/
theorem C7_no_data_sentinel_witness :
    plot_snow_depth_boxplots [(⟨2025, 2, 1⟩, some 3)] [(⟨2025, 1, 5⟩, some 8)] 1 none = none :=
  (C7_no_data_sentinel [(⟨2025, 2, 1⟩, some 3)] [(⟨2025, 1, 5⟩, some 8)] 1 none).2
    (by norm_num [month_filter])

/-- C9: the batch loop visits every (treatment, control) combination and
records that pair's own result-or-error outcome; an error outcome for one
pair does not stop later pairs from being computed and recorded. -/
theorem C9_pair_failure_isolation :
    ∀ (E R : Type) (compute : String → String → Except E R)
      (ts cs : List String),
      (generate_all_plots_pairs compute ts cs).length = ts.length * cs.length ∧
      (∀ t c, t ∈ ts → c ∈ cs →
        ((t, c), compute t c) ∈ generate_all_plots_pairs compute ts cs) := by
  intro E R compute ts cs
  constructor
  · exact flatMap_length_const _ ts cs.length (fun a _ => by simp)
  · intro t c ht hc
    rw [generate_all_plots_pairs, List.mem_flatMap]
    exact ⟨t, ht, List.mem_map.mpr ⟨c, hc, rfl⟩⟩

/-- Witness for C9: with the first pair failing, the second pair's
successful outcome is still recorded. -/
theorem C9_pair_failure_isolation_witness :
    ((("B", "x"), Except.ok "done") ∈
      generate_all_plots_pairs
        (fun t _ => if t = "A" then Except.error "boom" else Except.ok "done")
        ["A", "B"] ["x"]) ∧
    (generate_all_plots_pairs
        (fun t _ => if t = "A" then (Except.error "boom" : Except String String)
          else Except.ok "done")
        ["A", "B"] ["x"]).length = 2 := by
  constructor
  · have h := (C9_pair_failure_isolation String String
      (fun t _ => if t = "A" then Except.error "boom" else Except.ok "done")
      ["A", "B"] ["x"]).2 "B" "x" (by simp) (by simp)
    simpa using h
  · exact (C9_pair_failure_isolation String String _ ["A", "B"] ["x"]).1

/-- C10: the water-year assignment depends only on the calendar month and
year of the date together with the configured start month: it is invariant
in the date's day of month and in the configured start day, any month
on/after the start month maps to year + 1, any earlier month to the year
itself, and Oct 1 and Oct 31 always share a water year. -/
theorem C10_start_day_unused :
    ∀ (sd1 sd2 y m d1 d2 : Nat),
      get_water_year_cfg WATER_YEAR_START_MONTH sd1 ⟨y, m, d1⟩ =
        get_water_year_cfg WATER_YEAR_START_MONTH sd2 ⟨y, m, d2⟩ ∧
      (WATER_YEAR_START_MONTH ≤ m →
        get_water_year_cfg WATER_YEAR_START_MONTH sd1 ⟨y, m, d1⟩ = y + 1) ∧
      (m < WATER_YEAR_START_MONTH →
        get_water_year_cfg WATER_YEAR_START_MONTH sd1 ⟨y, m, d1⟩ = y) ∧
      get_water_year ⟨y, 10, 1⟩ = get_water_year ⟨y, 10, 31⟩ := by
  intro sd1 sd2 y m d1 d2
  refine ⟨?_, ?_, ?_, ?_⟩ <;>
    simp only [get_water_year, get_water_year_cfg, WATER_YEAR_START_MONTH] <;>
    split_ifs <;> omega

/-- Witness for C10 with start days 1 and 15. -/
theorem C10_start_day_unused_witness :
    WATER_YEAR_START_MONTH ≤ 10 ∧
    get_water_year_cfg WATER_YEAR_START_MONTH 1 ⟨2025, 10, 1⟩ = 2026 :=
  ⟨by decide, (C10_start_day_unused 1 15 2025 10 1 31).2.1 (by decide)⟩

/-- C8: the water-year function is a pure function of the date that is
monotone along the date order, so on any date-ordered list the rows sharing
a water year form contiguous, non-overlapping segments ordered by date;
Sept 30 and Oct 1 of the same calendar year land in different water years
with the default Oct 1 start, and the Decumulator restarts the
first-reading-keeps-its-raw-value rule at the boundary. -/
theorem C8_water_year_partition :
    (∀ a b : Date, Date.le a b → get_water_year a ≤ get_water_year b) ∧
    (∀ (l : List Date), l.Pairwise Date.le →
      ∀ (i j k : Fin l.length), i ≤ j → j ≤ k →
        get_water_year (l.get i) = get_water_year (l.get k) →
        get_water_year (l.get j) = get_water_year (l.get i)) ∧
    (get_water_year ⟨2025, 9, 30⟩ = 2025 ∧ get_water_year ⟨2025, 10, 1⟩ = 2026) ∧
    handle_snotel_cumulative [(⟨2025, 9, 30⟩, some 4), (⟨2025, 10, 1⟩, some 5)] =
      [(⟨2025, 9, 30⟩, some 4), (⟨2025, 10, 1⟩, some 5)] := by
  refine ⟨fun a b h => get_water_year_monotone h, ?_, ⟨by decide, by decide⟩, ?_⟩
  · intro l hl i j k hij hjk hik
    have hle : ∀ (a b : Fin l.length), a ≤ b →
        get_water_year (l.get a) ≤ get_water_year (l.get b) := by
      intro a b hab
      rcases eq_or_lt_of_le hab with he | hlt
      · rw [he]
      · exact get_water_year_monotone (List.pairwise_iff_get.mp hl a b hlt)
    have h1 := hle i j hij
    have h2 := hle j k hjk
    omega
  · norm_num [handle_snotel_cumulative, sort_by_date, groupDiff, lookupWY,
      firstOfWY, negToNan, get_water_year, get_water_year_cfg,
      WATER_YEAR_START_MONTH, List.insertionSort, List.orderedInsert, Date.le]

/-- Witness for C8: contiguity applied to the concrete boundary list. -/
theorem C8_water_year_partition_witness :
    get_water_year (([⟨2025, 9, 30⟩, ⟨2025, 10, 1⟩] : List Date).get ⟨0, by decide⟩) =
      get_water_year (([⟨2025, 9, 30⟩, ⟨2025, 10, 1⟩] : List Date).get ⟨0, by decide⟩) :=
  (C8_water_year_partition).2.1 [⟨2025, 9, 30⟩, ⟨2025, 10, 1⟩]
    (by simp [Date.le]) ⟨0, by decide⟩ ⟨0, by decide⟩ ⟨0, by decide⟩
    (by decide) (by decide) rfl

/-- `stateList` over a snoc. -/
lemma stateList_concat (pre : List Row) (x : Row) :
    stateList (pre ++ [x]) = (get_water_year x.1, x.2) :: stateList pre := by
  simp [stateList]

/-- `stateAfter` over a snoc. -/
lemma stateAfter_concat (p : Option (Nat × Option ℚ)) (pre : List Row) (x : Row) :
    stateAfter p (pre ++ [x]) = some (get_water_year x.1, x.2) := by
  simp [stateAfter, List.getLast?_concat]

/-- `stateAfter` over a cons. -/
lemma stateAfter_cons (p : Option (Nat × Option ℚ)) (x : Row) (xs : List Row) :
    stateAfter p (x :: xs) = stateAfter (some (get_water_year x.1, x.2)) xs := by
  cases xs with
  | nil => rfl
  | cons y ys =>
      simp only [stateAfter, List.getLast?_cons_cons]
      rcases hgl : (y :: ys).getLast? with _ | r
      · exact absurd hgl (by simp)
      · rfl

/-- No earlier row has the sought water year: the group has no previous
row. -/
lemma lookupWY_stateList_none {pre : List Row} {wy : Nat}
    (h : ∀ r ∈ pre, get_water_year r.1 ≠ wy) :
    lookupWY (stateList pre) wy = none := by
  unfold lookupWY
  rw [List.find?_eq_none.mpr]
  intro x hx
  simp only [stateList, List.mem_reverse, List.mem_map] at hx
  obtain ⟨r, hr, rfl⟩ := hx
  simpa using h r hr

/-- The row consumed last is found first by the group lookup. -/
lemma lookupWY_stateList_concat {ps : List Row} {q : Row} {wy : Nat}
    (h : get_water_year q.1 = wy) :
    lookupWY (stateList (ps ++ [q])) wy = some q.2 := by
  rw [stateList_concat]
  unfold lookupWY
  rw [List.find?_cons_of_pos _ (by simpa using h)]

/-- The first-day mask in terms of the rows. -/
lemma firstOfWY_iff (rows : List Row) (d : Date) :
    firstOfWY rows d = true ↔
      ∀ r ∈ rows, get_water_year r.1 = get_water_year d → Date.le d r.1 := by
  simp only [firstOfWY, List.all_eq_true, Bool.or_eq_true, Bool.not_eq_true',
    beq_eq_false_iff_ne, ne_eq, decide_eq_true_eq]
  constructor
  · intro h r hr he
    rcases h r hr with hne | hle
    · exact absurd he hne
    · exact hle
  · intro h r hr
    by_cases he : get_water_year r.1 = get_water_year d
    · exact Or.inr (h r hr he)
    · exact Or.inl he

/-- Unfolding `decumulate_sorted` over a cons. -/
lemma decumulate_sorted_cons (p : Option (Nat × Option ℚ)) (d : Date)
    (v : Option ℚ) (rest : List Row) :
    decumulate_sorted p ((d, v) :: rest) =
      (d, negToNan (match p with
        | some (pwy, pv) =>
            if pwy = get_water_year d then
              match pv, v with
              | some pq, some cq => some (cq - pq)
              | _, _ => none
            else v
        | none => v)) :: decumulate_sorted (some (get_water_year d, v)) rest := by
  simp [decumulate_sorted, raw_increments]

/-- Unfolding `groupDiff` over a cons. -/
lemma groupDiff_cons (acc : List (Nat × Option ℚ)) (d : Date) (v : Option ℚ)
    (rest : List Row) :
    groupDiff acc ((d, v) :: rest) =
      (match lookupWY acc (get_water_year d), v with
       | some (some pv), some cv => some (cv - pv)
       | _, _ => none)
        :: groupDiff ((get_water_year d, v) :: acc) rest := rfl

/-- Core of the bridge: consuming the remaining rows of a strictly
date-sorted frame, the zipped `groupDiff`/first-day/negative pipeline
agrees with the one-pass `decumulate_sorted`. -/
lemma handle_core (post : List Row) : ∀ pre : List Row,
    ((pre ++ post).Pairwise (fun a b => Date.lt a.1 b.1)) →
    (post.zip (groupDiff (stateList pre) post)).map (fun p =>
        (p.1.1, negToNan (if firstOfWY (pre ++ post) p.1.1 then p.1.2 else p.2)))
      = decumulate_sorted (stateAfter none pre) post := by
  induction post with
  | nil => intro pre _; simp [decumulate_sorted, raw_increments]
  | cons hd rest ih =>
      intro pre hpair
      obtain ⟨d, v⟩ := hd
      have hpre_d : ∀ r ∈ pre, Date.lt r.1 d := by
        intro r hr
        exact (List.pairwise_append.mp hpair).2.2 r hr (d, v) (by simp)
      have hd_rest : ∀ r ∈ rest, Date.lt d r.1 := by
        have := (List.pairwise_append.mp hpair).2.1
        exact fun r hr => (List.pairwise_cons.mp this).1 r hr
      have hpre_pair : pre.Pairwise (fun a b => Date.lt a.1 b.1) :=
        (List.pairwise_append.mp hpair).1
      have htail :
          (rest.zip (groupDiff (stateList (pre ++ [(d, v)])) rest)).map (fun p =>
              (p.1.1, negToNan
                (if firstOfWY ((pre ++ [(d, v)]) ++ rest) p.1.1 then p.1.2 else p.2)))
            = decumulate_sorted (stateAfter none (pre ++ [(d, v)])) rest := by
        apply ih
        simpa [List.append_assoc] using hpair
      rw [stateList_concat] at htail
      rw [stateAfter_concat] at htail
      simp only [List.append_assoc, List.singleton_append] at htail
      -- Split on the shape of `pre`.
      rcases List.eq_nil_or_concat pre with rfl | ⟨ps, q, heq⟩
      · -- No earlier row: the head is the first of its water year.
        have hfirst : firstOfWY ((d, v) :: rest) d = true := by
          rw [firstOfWY_iff]
          intro r hr _
          rcases List.mem_cons.mp hr with rfl | hr
          · exact Date.le_refl d
          · exact Date.lt_le (hd_rest r hr)
        have hsa : stateAfter none ([] : List Row) = none := rfl
        simp only [List.nil_append] at htail ⊢
        rw [hsa, groupDiff_cons, List.zip_cons_cons, List.map_cons, decumulate_sorted_cons]
        refine congrArg₂ List.cons ?_ htail
        simp [hfirst]
      · -- There is a last earlier row `q`.
        rw [List.concat_eq_append] at heq
        subst heq
        obtain ⟨qd, qv⟩ := q
        have hqd_d : Date.lt qd d := hpre_d (qd, qv) (by simp)
        have hps_q : ∀ r ∈ ps, Date.le r.1 qd := by
          intro r hr
          exact Date.lt_le ((List.pairwise_append.mp hpre_pair).2.2 r hr (qd, qv) (by simp))
        simp only [List.append_assoc, List.singleton_append] at htail hpre_d ⊢
        rw [stateAfter_concat]
        by_cases hwy : get_water_year qd = get_water_year d
        · -- Same water year: `diff` subtracts `q`'s value and the head is
          -- not the first of its group.
          have hlook := @lookupWY_stateList_concat ps (qd, qv) _ hwy
          have hfirst : firstOfWY (ps ++ (qd, qv) :: (d, v) :: rest) d = false := by
            rw [← Bool.not_eq_true, firstOfWY_iff]
            intro hall
            have := hall (qd, qv) (by simp) hwy
            exact Date.lt_not_le hqd_d this
          rw [groupDiff_cons, List.zip_cons_cons, List.map_cons, hlook,
            decumulate_sorted_cons]
          refine congrArg₂ List.cons ?_ htail
          simp only [hfirst, Bool.false_eq_true, if_false, if_pos hwy]
          cases qv <;> cases v <;> rfl
        · -- Water year changed: no previous row in the group, head is
          -- first of its group.
          have hnone : lookupWY (stateList (ps ++ [(qd, qv)])) (get_water_year d) = none := by
            apply lookupWY_stateList_none
            intro r hr
            have hrq : Date.le r.1 qd := by
              rcases (List.mem_append.mp hr) with hr' | hr'
              · exact hps_q r hr'
              · simp only [List.mem_singleton] at hr'
                subst hr'
                exact Date.le_refl _
            have h1 : get_water_year r.1 ≤ get_water_year qd :=
              get_water_year_monotone hrq
            have h2 : get_water_year qd ≤ get_water_year d :=
              get_water_year_monotone (Date.lt_le hqd_d)
            omega
          have hfirst : firstOfWY (ps ++ (qd, qv) :: (d, v) :: rest) d = true := by
            rw [firstOfWY_iff]
            intro r hr hre
            rcases List.mem_append.mp hr with hr' | hr'
            · exfalso
              have h1 : get_water_year r.1 ≤ get_water_year qd :=
                get_water_year_monotone (hps_q r hr')
              have h2 : get_water_year qd ≤ get_water_year d :=
                get_water_year_monotone (Date.lt_le hqd_d)
              omega
            · rcases List.mem_cons.mp hr' with rfl | hr''
              · exact absurd (by simpa using hre) hwy
              · rcases List.mem_cons.mp hr'' with rfl | hr'''
                · exact Date.le_refl d
                · exact Date.lt_le (hd_rest r hr''')
          rw [groupDiff_cons, List.zip_cons_cons, List.map_cons, hnone,
            decumulate_sorted_cons]
          refine congrArg₂ List.cons ?_ htail
          simp only [hfirst, if_true, if_neg hwy]

/-- The bridge: on a strictly date-sorted input the source pipeline equals
the one-pass Decumulator. -/
lemma handle_eq_decumulate {rows : List Row}
    (h : rows.Pairwise (fun a b => Date.lt a.1 b.1)) :
    handle_snotel_cumulative rows = decumulate_sorted none rows := by
  have hsorted : sort_by_date rows = rows :=
    List.Sorted.insertionSort_eq (h.imp (fun hab => Date.lt_le hab))
  have hcore := handle_core rows [] (by simpa using h)
  simp only [List.nil_append] at hcore
  unfold handle_snotel_cumulative
  rw [hsorted]
  exact hcore

/-- Values surviving the negative-to-missing rule are nonnegative. -/
lemma negToNan_nonneg {w : Option ℚ} {x : ℚ} (h : negToNan w = some x) :
    0 ≤ x := by
  cases w with
  | none => simp [negToNan] at h
  | some q =>
      simp only [negToNan] at h
      split_ifs at h with hq
      rw [Option.some_inj] at h
      subst h
      exact not_lt.mp hq

/-- `raw_increments` splits over an append, the state carrying over. -/
lemma raw_increments_append (p : Option (Nat × Option ℚ)) (xs ys : List Row) :
    raw_increments p (xs ++ ys) =
      raw_increments p xs ++ raw_increments (stateAfter p xs) ys := by
  induction xs generalizing p with
  | nil => simp [raw_increments, stateAfter]
  | cons x xs ih =>
      obtain ⟨d, v⟩ := x
      rw [List.cons_append]
      simp only [raw_increments]
      rw [ih, stateAfter_cons, List.cons_append]

/-- `decumulate_sorted` splits over an append, the state carrying over. -/
lemma decumulate_sorted_append (p : Option (Nat × Option ℚ)) (xs ys : List Row) :
    decumulate_sorted p (xs ++ ys) =
      decumulate_sorted p xs ++ decumulate_sorted (stateAfter p xs) ys := by
  simp [decumulate_sorted, raw_increments_append]

/-- Unfolding `forward_differences_spec` over a cons. -/
lemma forward_differences_spec_cons (p : Option (Nat × ℚ)) (d : Date) (v : ℚ)
    (rest : List (Date × ℚ)) :
    forward_differences_spec p ((d, v) :: rest) =
      (d, match p with
          | some (pwy, pv) => if pwy = get_water_year d then v - pv else v
          | none => v) :: forward_differences_spec (some (get_water_year d, v)) rest := by
  simp [forward_differences_spec]

/-- The spec's dates are the input dates. -/
lemma forward_differences_spec_fst (p : Option (Nat × ℚ)) (rows : List (Date × ℚ)) :
    (forward_differences_spec p rows).map Prod.fst = rows.map Prod.fst := by
  induction rows generalizing p with
  | nil => rfl
  | cons a rest ih =>
      obtain ⟨d, v⟩ := a
      rw [forward_differences_spec_cons, List.map_cons, List.map_cons, ih]

/-- On a well-formed series the one-pass Decumulator computes exactly the
spec's forward differences, every increment surviving the
negative-to-missing rule. -/
lemma decumulate_spec (rows : List (Date × ℚ)) : ∀ (p : Option (Nat × ℚ)),
    (∀ a ∈ rows.head?, seg_ok p a) →
    rows.Chain' (fun a b => seg_ok (some (get_water_year a.1, a.2)) b) →
    decumulate_sorted (p.map (fun q => (q.1, some q.2)))
        (rows.map (fun r => (r.1, some r.2))) =
      (forward_differences_spec p rows).map (fun r => (r.1, some r.2)) := by
  induction rows with
  | nil => intro p _ _; rfl
  | cons a rest ih =>
      intro p hhead hchain
      obtain ⟨d, v⟩ := a
      rw [List.map_cons, decumulate_sorted_cons, forward_differences_spec_cons,
        List.map_cons]
      refine congrArg₂ List.cons ?_ ?_
      · rcases p with _ | ⟨pwy, pv⟩
        · have h0 : 0 ≤ v := hhead (d, v) rfl
          show (d, negToNan (some v)) = (d, some v)
          simp [negToNan, not_lt.mpr h0]
        · rcases hhead (d, v) rfl with ⟨hlt, hge⟩
          by_cases hp : pwy = get_water_year d
          · have hpos : ¬ (v - pv < 0) := by
              have := hlt hp
              simp only [seg_ok] at this ⊢
              linarith
            simp only [Option.map_some', hp, eq_self_iff_true, if_true]
            show (d, negToNan (some (v - pv))) = (d, some (v - pv))
            simp [negToNan, hpos]
          · have h0 : 0 ≤ v := hge hp
            simp only [Option.map_some', if_neg hp]
            show (d, negToNan (some v)) = (d, some v)
            simp [negToNan, not_lt.mpr h0]
      · have hc := List.chain'_cons'.mp hchain
        exact ih (some (get_water_year d, v)) hc.1 hc.2

/-- C4: the negative-to-missing rule acts pointwise — on a date-ordered
input the pipeline is the raw per-segment increments with each negative
increment replaced by the missing marker, leaving every other position
untouched; consequently no returned value is ever negative; and the spec's
concrete scenario [(Oct 1, 5), (Oct 2, 3)] yields [5, missing], not
[5, -2]. -/
theorem C4_negative_increment_to_missing :
    (∀ rows : List Row, rows.Pairwise (fun a b => Date.lt a.1 b.1) →
      handle_snotel_cumulative rows =
        (raw_increments none rows).map (fun r => (r.1, negToNan r.2))) ∧
    (∀ (rows : List Row) (r : Row), r ∈ handle_snotel_cumulative rows →
      ∀ x : ℚ, r.2 = some x → 0 ≤ x) ∧
    handle_snotel_cumulative [(⟨2025, 10, 1⟩, some 5), (⟨2025, 10, 2⟩, some 3)] =
      [(⟨2025, 10, 1⟩, some 5), (⟨2025, 10, 2⟩, none)] := by
  refine ⟨?_, ?_, ?_⟩
  · intro rows h
    rw [handle_eq_decumulate h]
    rfl
  · intro rows r hr x hx
    simp only [handle_snotel_cumulative, List.mem_map] at hr
    obtain ⟨p, -, rfl⟩ := hr
    exact negToNan_nonneg hx
  · norm_num [handle_snotel_cumulative, sort_by_date, groupDiff, lookupWY,
      firstOfWY, negToNan, get_water_year, get_water_year_cfg,
      WATER_YEAR_START_MONTH, List.insertionSort, List.orderedInsert, Date.le]

/-- Witness for C4 on the concrete sensor-correction scenario. -/
theorem C4_negative_increment_to_missing_witness :
    handle_snotel_cumulative [(⟨2025, 10, 1⟩, some 5), (⟨2025, 10, 2⟩, some 3)] =
      (raw_increments none [(⟨2025, 10, 1⟩, some 5), (⟨2025, 10, 2⟩, some 3)]).map
        (fun r => (r.1, negToNan r.2)) :=
  (C4_negative_increment_to_missing).1
    [(⟨2025, 10, 1⟩, some 5), (⟨2025, 10, 2⟩, some 3)] (by decide)

/-- C2 (amended): a missing cumulative value yields a missing increment at
its own position, and the increment of the immediately following reading of
the same water year is missing as well — the group-wise difference uses the
immediately preceding row, not the nearest prior non-missing value — while
all other positions are computed as usual. -/
theorem C2_missing_propagation_amended :
    ∀ (pre post : List Row) (d1 d2 : Date) (v : ℚ),
      ((pre ++ (d1, none) :: (d2, some v) :: post).Pairwise
        (fun a b => Date.lt a.1 b.1)) →
      get_water_year d1 = get_water_year d2 →
      handle_snotel_cumulative (pre ++ (d1, none) :: (d2, some v) :: post) =
        decumulate_sorted none pre ++ (d1, none) :: (d2, none) ::
          decumulate_sorted (some (get_water_year d2, some v)) post := by
  intro pre post d1 d2 v hpair hwy
  rw [handle_eq_decumulate hpair, decumulate_sorted_append]
  congr 1
  rw [decumulate_sorted_cons]
  refine congrArg₂ List.cons ?_ ?_
  · rcases hsa : stateAfter none pre with _ | ⟨pwy, pv⟩
    · rfl
    · by_cases hp : pwy = get_water_year d1
      · rcases pv with _ | q <;> simp [hp, negToNan]
      · simp [hp, negToNan]
  · rw [decumulate_sorted_cons]
    refine congrArg₂ List.cons ?_ rfl
    simp [hwy, negToNan]

/-- Witness for C2 (amended) on the 5/missing/8 scenario. -/
theorem C2_missing_propagation_amended_witness :
    handle_snotel_cumulative
        ([(⟨2025, 10, 1⟩, some 5)] ++
          (⟨2025, 10, 2⟩, none) :: (⟨2025, 10, 3⟩, some 8) :: []) =
      decumulate_sorted none [(⟨2025, 10, 1⟩, some 5)] ++
        (⟨2025, 10, 2⟩, none) :: (⟨2025, 10, 3⟩, none) ::
          decumulate_sorted (some (get_water_year ⟨2025, 10, 3⟩, some 8)) [] :=
  C2_missing_propagation_amended [(⟨2025, 10, 1⟩, some 5)] []
    ⟨2025, 10, 2⟩ ⟨2025, 10, 3⟩ 8 (by decide) (by decide)

/-- C3 (amended): on a date-ordered series of present readings that is
strictly increasing within each water-year segment and whose
segment-opening readings are nonnegative, the Decumulator returns, in the
same order and cardinality, the per-segment forward differences with each
segment's first element the raw cumulative value (the nonnegativity at
segment openings is forced by the negative-to-missing rule, see the
counterexample). -/
theorem C3_forward_differences_amended :
    ∀ rows : List (Date × ℚ),
      rows.Pairwise (fun a b => Date.lt a.1 b.1) →
      (∀ a ∈ rows.head?, 0 ≤ a.2) →
      rows.Chain' (fun a b => seg_ok (some (get_water_year a.1, a.2)) b) →
      handle_snotel_cumulative (rows.map (fun r => (r.1, some r.2))) =
        (forward_differences_spec none rows).map (fun r => (r.1, some r.2)) ∧
      (handle_snotel_cumulative (rows.map (fun r => (r.1, some r.2)))).map Prod.fst =
        rows.map Prod.fst ∧
      (handle_snotel_cumulative (rows.map (fun r => (r.1, some r.2)))).length =
        rows.length := by
  intro rows hpair hhead hchain
  have hb : handle_snotel_cumulative (rows.map (fun r => (r.1, some r.2))) =
      decumulate_sorted none (rows.map (fun r => (r.1, some r.2))) := by
    apply handle_eq_decumulate
    exact List.pairwise_map.mpr hpair
  have hs := decumulate_spec rows none (by simpa [seg_ok] using hhead) hchain
  simp only [Option.map_none'] at hs
  refine ⟨hb.trans hs, ?_, ?_⟩
  · rw [hb, hs, List.map_map]
    have hcomp : (Prod.fst ∘ fun r : Date × ℚ => (r.1, some r.2)) = Prod.fst := rfl
    rw [hcomp]
    exact forward_differences_spec_fst none rows
  · rw [hb, hs, List.length_map]
    have hlen := congrArg List.length (forward_differences_spec_fst none rows)
    simpa using hlen

/-- Witness for C3 (amended) across the Sept 30 / Oct 1 boundary. -/
theorem C3_forward_differences_amended_witness :
    handle_snotel_cumulative
        ([(⟨2025, 9, 30⟩, 3), (⟨2025, 10, 1⟩, 5), (⟨2025, 10, 2⟩, 7)].map
          (fun r : Date × ℚ => (r.1, some r.2))) =
      (forward_differences_spec none
          [(⟨2025, 9, 30⟩, 3), (⟨2025, 10, 1⟩, 5), (⟨2025, 10, 2⟩, 7)]).map
        (fun r : Date × ℚ => (r.1, some r.2)) :=
  (C3_forward_differences_amended
      [(⟨2025, 9, 30⟩, 3), (⟨2025, 10, 1⟩, 5), (⟨2025, 10, 2⟩, 7)]
      (by decide)
      (by norm_num)
      (by norm_num [List.chain'_cons, seg_ok, get_water_year, get_water_year_cfg,
        WATER_YEAR_START_MONTH])).1

/-- C5: the difference distribution is the per-date treatment − control
over the exact-date inner join of the month-filtered series, dropping any
date absent or missing on either side; on the spec's two-day January
scenario the distribution is [2, 4] with highlight (11, 8, 3). -/
theorem C5_difference_alignment :
    (∀ (t c : List Row) (m : Nat) (y : Option Nat) (s : MonthlySummary),
      (t.map Prod.fst).Nodup → (c.map Prod.fst).Nodup →
      plot_snow_depth_boxplots t c m y = some s →
      ∀ q : ℚ, q ∈ s.diff_dist ↔
        ∃ (d : Date) (tv cv : ℚ), (d, some tv) ∈ t ∧ (d, some cv) ∈ c ∧
          d.month = m ∧ q = tv - cv) ∧
    plot_snow_depth_boxplots
        [(⟨2025, 1, 5⟩, some 10), (⟨2025, 1, 6⟩, some 12)]
        [(⟨2025, 1, 5⟩, some 8), (⟨2025, 1, 6⟩, some 8)]
        1 (some 2025) =
      some ⟨[10, 12], [8, 8], [2, 4], some (11, 8, 3)⟩ := by
  constructor
  · intro t c m y s ht hc h q
    obtain ⟨-, -, hdiff, -⟩ := plot_some_fields t c m y s h
    rw [hdiff, List.mem_map]
    constructor
    · rintro ⟨r, hr, rfl⟩
      obtain ⟨d, tv, cv⟩ := r
      rw [mem_merged_rows (nodup_month_filter ht m) (nodup_month_filter hc m)] at hr
      obtain ⟨h1, h2⟩ := hr
      obtain ⟨h1m, h1p⟩ := List.mem_filter.mp h1
      obtain ⟨h2m, h2p⟩ := List.mem_filter.mp h2
      exact ⟨d, tv, cv, h1m, h2m, by simpa using h1p, rfl⟩
    · rintro ⟨d, tv, cv, h1, h2, hm, rfl⟩
      refine ⟨(d, tv, cv), ?_, rfl⟩
      rw [mem_merged_rows (nodup_month_filter ht m) (nodup_month_filter hc m)]
      exact ⟨List.mem_filter.mpr ⟨h1, by simpa using hm⟩,
        List.mem_filter.mpr ⟨h2, by simpa using hm⟩⟩
  · norm_num [plot_snow_depth_boxplots, month_filter, dropna_values,
      merged_rows, union_dates, lookup_value, mean, List.insertionSort,
      List.orderedInsert, List.dedup, List.pwFilter, Date.le,
      List.filterMap_cons, List.find?_cons, instBEqOfDecidableEq]

/-- Witness for C5: the aligned difference 2 of Jan 5 belongs to the
returned distribution. -/
theorem C5_difference_alignment_witness :
    (2 : ℚ) ∈ (MonthlySummary.mk [10, 12] [8, 8] [2, 4] (some (11, 8, 3))).diff_dist :=
  ((C5_difference_alignment).1
      [(⟨2025, 1, 5⟩, some 10), (⟨2025, 1, 6⟩, some 12)]
      [(⟨2025, 1, 5⟩, some 8), (⟨2025, 1, 6⟩, some 8)]
      1 (some 2025) ⟨[10, 12], [8, 8], [2, 4], some (11, 8, 3)⟩
      (by decide) (by decide)
      (by norm_num [plot_snow_depth_boxplots, month_filter, dropna_values,
        merged_rows, union_dates, lookup_value, mean, List.insertionSort,
        List.orderedInsert, List.dedup, List.pwFilter, Date.le,
        List.filterMap_cons, List.find?_cons, instBEqOfDecidableEq]) 2).mpr
    ⟨⟨2025, 1, 5⟩, 10, 8, by norm_num, by norm_num, rfl, by norm_num⟩
